import Mathlib

/-!
# Verification of the SpoolBuddy live-telemetry reconciliation core

This file gives a shallow embedding, in Lean 4, of the live-telemetry
reconciliation and job-feasibility logic of the bambuddy repository:

* the live-state reducer of the SpoolBuddy hook (`useSpoolBuddyState`),
* the dashboard display reconciler (`SpoolBuddyDashboard`): the
  displayed/hidden tag state, the weight stability filter and the
  exactly-once weight auto-sync,
* the derived spool values of `SpoolInfoCard`,
* the queue feasibility filter and clear-plate gating of
  `PrinterQueueWidget`.

JavaScript numbers are modelled as rationals; `Math.round` is modelled
as `jround` (floor of x + 1/2, which is the JS semantics); nullable
values become `Option`.
-/

namespace Bambuddy

/-- JavaScript `Math.round`: round half toward positive infinity. -/
def jround (x : ℚ) : ℤ := ⌊x + 1/2⌋

/-- Evaluation rule for `jround` from an enclosing unit interval. -/
theorem jround_eval {x : ℚ} {n : ℤ} (h1 : (n : ℚ) ≤ x + 1/2)
    (h2 : x + 1/2 < n + 1) : jround x = n := by
  unfold jround
  rw [Int.floor_eq_iff]
  · exact ⟨h1, by exact_mod_cast h2⟩

/-- JavaScript `Math.max` on two numbers. -/
def jmax (a b : ℚ) : ℚ := if a ≤ b then b else a

/-- JavaScript `Math.min` on two integers. -/
def jmin (a b : ℤ) : ℤ := if a ≤ b then a else b

/-- JavaScript `Math.abs`. -/
def jabs (x : ℚ) : ℚ := if x ≤ 0 then -x else x

theorem jmax_eq_max (a b : ℚ) : jmax a b = max a b := by
  unfold jmax
  rcases le_total a b with h | h
  · rw [if_pos h, max_eq_right h]
  · rcases eq_or_lt_of_le h with rfl | hlt
    · simp
    · rw [if_neg (not_le.mpr hlt), max_eq_left h]

theorem jmin_eq_min (a b : ℤ) : jmin a b = min a b := by
  unfold jmin
  rcases le_total a b with h | h
  · rw [if_pos h, min_eq_left h]
  · rcases eq_or_lt_of_le h with rfl | hlt
    · simp
    · rw [if_neg (not_le.mpr hlt), min_eq_right h]

theorem jabs_eq_abs (x : ℚ) : jabs x = |x| := by
  unfold jabs
  rcases le_total x 0 with h | h
  · rw [if_pos h, abs_of_nonpos h]
  · rcases eq_or_lt_of_le h with rfl | hlt
    · simp
    · rw [if_neg (not_le.mpr hlt), abs_of_nonneg h]

/-! ## Live-state reducer (hooks/useSpoolBuddyState)

Embeds the `reducer` of the SpoolBuddy hook: state
`{weight, weightStable, rawAdc, matchedSpool, unknownTagUid,
deviceOnline, deviceId}` and the six action types.
-/

/-- A spool as delivered in a tag-matched event (`MatchedSpool`). -/
structure MatchedSpool where
  id : ℕ
  tag_uid : String
  material : String
  color_name : Option String
  rgba : Option String
  brand : Option String
  label_weight : ℚ
  core_weight : ℚ
  weight_used : ℚ
  deriving DecidableEq

/-- The live device state held by the reducer (`SpoolBuddyState`). -/
structure SpoolBuddyState where
  weight : Option ℚ
  weightStable : Bool
  rawAdc : Option ℤ
  matchedSpool : Option MatchedSpool
  unknownTagUid : Option String
  deviceOnline : Bool
  deviceId : Option String
  deriving DecidableEq

/-- The reducer's action type (`Action`). -/
inductive SBAction where
  | weightUpdate (weight : ℚ) (stable : Bool) (rawAdc : ℤ) (deviceId : String)
  | tagMatched (spool : MatchedSpool) (deviceId : String)
  | unknownTag (tagUid : String) (deviceId : String)
  | tagRemoved (deviceId : String)
  | deviceOnline (deviceId : String)
  | deviceOffline (deviceId : String)
  deriving DecidableEq

/-- The reducer's initial state (`initialState`). -/
def initialState : SpoolBuddyState :=
  { weight := none
    weightStable := false
    rawAdc := none
    matchedSpool := none
    unknownTagUid := none
    deviceOnline := false
    deviceId := none }

/-- The live-state `reducer` of `useSpoolBuddyState`, case by case. -/
def reducer (state : SpoolBuddyState) (action : SBAction) : SpoolBuddyState :=
  match action with
  | .weightUpdate w stable rawAdc deviceId =>
      { state with
        weight := some w
        weightStable := stable
        rawAdc := some rawAdc
        deviceId := some deviceId
        deviceOnline := true }
  | .tagMatched spool deviceId =>
      { state with
        matchedSpool := some spool
        unknownTagUid := none
        deviceId := some deviceId }
  | .unknownTag tagUid deviceId =>
      { state with
        matchedSpool := none
        unknownTagUid := some tagUid
        deviceId := some deviceId }
  | .tagRemoved _ =>
      { state with
        matchedSpool := none
        unknownTagUid := none }
  | .deviceOnline deviceId =>
      { state with
        deviceOnline := true
        deviceId := some deviceId }
  | .deviceOffline _ =>
      { state with
        deviceOnline := false
        weight := none
        weightStable := false
        rawAdc := none }

/-- Run the reducer over a list of actions from a starting state. -/
def runReducer (s : SpoolBuddyState) (acts : List SBAction) : SpoolBuddyState :=
  acts.foldl reducer s

/-- A concrete matched spool used in counterexamples. -/
def sampleSpool : MatchedSpool :=
  { id := 7
    tag_uid := "04AA"
    material := "PLA"
    color_name := none
    rgba := none
    brand := none
    label_weight := 1000
    core_weight := 250
    weight_used := 200 }

/-- C2 counterexample: after a tag has been matched, processing
DEVICE_OFFLINE clears the weight fields but leaves the matched spool in
place — contrary to the claim that the state after DEVICE_OFFLINE has
no matched spool. -/
theorem deviceOffline_keeps_matchedSpool :
    (reducer (reducer initialState (.tagMatched sampleSpool "dev1"))
        (.deviceOffline "dev1")).matchedSpool = some sampleSpool ∧
    some sampleSpool ≠ (none : Option MatchedSpool) := by
  constructor
  · rfl
  · simp

/-- C2 (amended): processing DEVICE_OFFLINE from any state sets
`deviceOnline := false` and clears the weight reading (`weight`,
`weightStable`, `rawAdc`), while leaving `matchedSpool`,
`unknownTagUid` and `deviceId` unchanged: the tag fields are NOT
cleared by going offline. -/
theorem deviceOffline_clears_weight_only (s : SpoolBuddyState) (d : String) :
    reducer s (.deviceOffline d) =
      { s with
        deviceOnline := false
        weight := none
        weightStable := false
        rawAdc := none } := by
  rfl

/-- The mutual-exclusion invariant of C9. -/
def tagExclusive (s : SpoolBuddyState) : Prop :=
  s.matchedSpool = none ∨ s.unknownTagUid = none

instance (s : SpoolBuddyState) : Decidable (tagExclusive s) := by
  unfold tagExclusive; infer_instance

/-- One reducer step preserves the mutual-exclusion invariant. -/
theorem tagExclusive_step (s : SpoolBuddyState) (a : SBAction)
    (h : tagExclusive s) : tagExclusive (reducer s a) := by
  cases a <;> simp [reducer, tagExclusive] at h ⊢ <;> tauto

/-- C9: in every state reachable from the initial state by any sequence
of reducer actions, at most one of `matchedSpool` and `unknownTagUid`
is non-null: a detected tag is either matched or unknown, never both. -/
theorem reachable_tagExclusive (acts : List SBAction) :
    tagExclusive (runReducer initialState acts) := by
  suffices h : ∀ (s : SpoolBuddyState), tagExclusive s →
      tagExclusive (runReducer s acts) by
    exact h initialState (Or.inl rfl)
  induction acts with
  | nil => intro s hs; exact hs
  | cons a rest ih =>
      intro s hs
      exact ih (reducer s a) (tagExclusive_step s a hs)

/-- C10: processing any WEIGHT_UPDATE action yields a state with
`deviceOnline = true`, regardless of the prior online flag: receiving a
weight sample by itself marks the device online. -/
theorem weightUpdate_sets_online (s : SpoolBuddyState) (w : ℚ)
    (stable : Bool) (r : ℤ) (d : String) :
    (reducer s (.weightUpdate w stable r d)).deviceOnline = true := by
  rfl

/-! ## Stability filter (SpoolBuddyDashboard)

Embeds the `stableDisplayWeight` ref update of the dashboard: on every
render, if the current weight is null the displayed weight is reset to
null; otherwise it is replaced by the new value when the last display
is unset, the change is at least `WEIGHT_THRESHOLD = 3` grams, or the
hardware reports `stable`.  The rendering of the stabilized value
clamps magnitudes of at most 20 g to exactly 0
(`Math.abs(v) <= 20 ? 0 : Math.round(Math.max(0, v))`).
-/

/-- One update of `stableDisplayWeight.current` given the previous
displayed value, the current weight and the stable flag. -/
def stabStep (lastDisplay : Option ℚ) (currentWeight : Option ℚ)
    (weightStable : Bool) : Option ℚ :=
  match currentWeight with
  | none => none
  | some g =>
      match lastDisplay with
      | none => some g
      | some l =>
          if 3 ≤ jabs (g - l) ∨ weightStable = true then some g else some l

/-- Fold the stability filter over a list of (weight, stable) samples. -/
def stabRun (lastDisplay : Option ℚ) (samples : List (ℚ × Bool)) : Option ℚ :=
  samples.foldl (fun d p => stabStep d (some p.1) p.2) lastDisplay

/-- The rendered scale value (`scaleDisplayValue` display expression). -/
def renderScale (v : Option ℚ) : Option ℤ :=
  v.map (fun x => if jabs x ≤ 20 then 0 else jround (jmax 0 x))

/-- C4 counterexample: the sample sequence 0, 2, 4 (none stable) has
consecutive differences below the 3 g threshold, yet the displayed
weight drifts from 0 to 4: the filter compares each sample against the
*displayed* value, not against the previous sample, so the claim that
the display never changes after the first sample is false. -/
theorem stability_drift_counterexample :
    stabRun none [((0 : ℚ), false), (2, false), (4, false)] = some 4 ∧
    (some (4 : ℚ) ≠ some (0 : ℚ)) ∧
    jabs ((2 : ℚ) - 0) < 3 ∧ jabs ((4 : ℚ) - 2) < 3 := by
  refine ⟨?_, by norm_num, by norm_num [jabs], by norm_num [jabs]⟩
  norm_num [stabRun, stabStep, jabs, List.foldl]

/-- Helper: the no-update case of one stability filter step. -/
theorem stabStep_no_update (l g : ℚ) (st : Bool) (h1 : jabs (g - l) < 3)
    (h2 : st = false) : stabStep (some l) (some g) st = some l := by
  simp only [stabStep]
  rw [if_neg]
  rintro (h | h)
  · exact absurd h (not_le.mpr h1)
  · rw [h2] at h; cases h

/-- C4 (amended): the displayed weight becomes null on a null sample;
otherwise it is replaced by the new grams value exactly when the last
display is unset, the difference from the *displayed* value is at
least 3 g, or the sample is stable, and is unchanged otherwise.
Consequently, for any sample sequence each of whose values differs
from the currently displayed value by less than 3 g, none stable, the
display never changes.  A non-null displayed value within plus or
minus 20 g of zero renders as exactly 0. -/
theorem stability_filter_spec :
    (∀ (last : Option ℚ) (st : Bool), stabStep last none st = none) ∧
    (∀ (g : ℚ) (st : Bool), stabStep none (some g) st = some g) ∧
    (∀ (l g : ℚ) (st : Bool), 3 ≤ jabs (g - l) ∨ st = true →
        stabStep (some l) (some g) st = some g) ∧
    (∀ (l g : ℚ) (st : Bool), jabs (g - l) < 3 → st = false →
        stabStep (some l) (some g) st = some l) ∧
    (∀ (l : ℚ) (samples : List (ℚ × Bool)),
        (∀ p ∈ samples, jabs (p.1 - l) < 3 ∧ p.2 = false) →
        stabRun (some l) samples = some l) ∧
    (∀ (v : ℚ), jabs v ≤ 20 → renderScale (some v) = some 0) := by
  refine ⟨fun _ _ => rfl, fun _ _ => rfl, ?_, stabStep_no_update, ?_, ?_⟩
  · intro l g st h
    simp only [stabStep, if_pos h]
  · intro l samples h
    induction samples with
    | nil => rfl
    | cons p rest ih =>
        have hp := h p (List.mem_cons_self p rest)
        show stabRun (stabStep (some l) (some p.1) p.2) rest = some l
        rw [stabStep_no_update l p.1 p.2 hp.1 hp.2]
        exact ih (fun q hq => h q (List.mem_cons_of_mem p hq))
  · intro v hv
    simp [renderScale, if_pos hv]

/-- A closed witness for the stability-filter theorem, applying it at
concrete inputs. -/
theorem stability_filter_spec_witness :
    stabStep (some 100) (some 101) false = some 100 ∧
    stabRun (some 100) [(101, false), (99, false)] = some 100 ∧
    renderScale (some (-15)) = some 0 := by
  refine ⟨?_, ?_, ?_⟩
  · exact stability_filter_spec.2.2.2.1 100 101 false (by norm_num [jabs]) rfl
  · exact stability_filter_spec.2.2.2.2.1 100 [(101, false), (99, false)]
      (by intro p hp; fin_cases hp <;> exact ⟨by norm_num [jabs], rfl⟩)
  · exact stability_filter_spec.2.2.2.2.2 (-15) (by norm_num [jabs])

/-! ## Derived spool values (SpoolInfoCard)

Embeds the derived-value computation of `SpoolInfoCard`: core-weight
fallback (`getDefaultCoreWeight`), gross weight, remaining filament,
fill percentage, expected gross weight and the scale/ledger match flag.
-/

/-- The spool fields used by the card computation. -/
structure SpoolFields where
  label_weight : ℚ
  core_weight : ℚ
  weight_used : ℚ
  deriving DecidableEq

/-- `getDefaultCoreWeight`: the user-configurable default core weight.
`stored` is the parsed localStorage value, if present; values in
0..500 are accepted, anything else falls back to 250 g. -/
def getDefaultCoreWeight (stored : Option ℤ) : ℤ :=
  match stored with
  | some w => if 0 ≤ w ∧ w ≤ 500 then w else 250
  | none => 250

/-- The derived values shown by the spool card. -/
structure CardView where
  core : ℚ
  gross : ℤ
  remaining : ℤ
  labelW : ℤ
  fillPercent : ℤ
  expected : ℚ
  isMatch : Bool
  deriving DecidableEq

/-- The card computation of `SpoolInfoCard` for a present scale
reading, following the source line by line: core-weight fallback,
`grossWeight`, `remaining`, `labelWeight = round(label_weight || 1000)`,
`fillPercent`, `calculatedWeight` (the expected gross) and `isMatch`. -/
def spoolCardView (sp : SpoolFields) (stored : Option ℤ) (scaleWeight : ℚ) :
    CardView :=
  let coreWeight : ℚ :=
    if 0 < sp.core_weight then sp.core_weight
    else (getDefaultCoreWeight stored : ℚ)
  let grossWeight : ℤ := jround (jmax 0 scaleWeight)
  let remaining : ℤ := jround (jmax 0 ((grossWeight : ℚ) - coreWeight))
  let labelWeight : ℤ :=
    if sp.label_weight = 0 then 1000 else jround sp.label_weight
  let fillPercent : ℤ :=
    jmin 100 (jround ((remaining : ℚ) / (labelWeight : ℚ) * 100))
  let netWeight : ℚ := jmax 0 (sp.label_weight - sp.weight_used)
  let calculatedWeight : ℚ := netWeight + coreWeight
  let difference : ℚ := (grossWeight : ℚ) - calculatedWeight
  { core := coreWeight
    gross := grossWeight
    remaining := remaining
    labelW := labelWeight
    fillPercent := fillPercent
    expected := calculatedWeight
    isMatch := decide (jabs difference ≤ 50) }

/-- The fill-percent formula exactly as the claim words it:
`min(100, round(remaining / max(1, labelWeightG) * 100))`. -/
def fillPercentSpec (remaining : ℤ) (labelWeightG : ℚ) : ℤ :=
  jmin 100 (jround ((remaining : ℚ) / jmax 1 labelWeightG * 100))

/-- C8 counterexample: for a spool with `labelWeightG = 0`,
`coreWeightG = 250` and a 503 g scale reading, the code computes a fill
percentage of 25 (it divides by `round(label_weight || 1000) = 1000`),
while the claim's formula `min(100, round(remaining / max(1, label) *
100))` gives 100. -/
theorem fillPercent_counterexample :
    (spoolCardView ⟨0, 250, 0⟩ none 503).fillPercent = 25 ∧
    fillPercentSpec 253 0 = 100 ∧
    (25 : ℤ) ≠ 100 := by
  have hg : jround (jmax 0 (503 : ℚ)) = 503 := by
    rw [show jmax 0 (503 : ℚ) = 503 by norm_num [jmax]]
    exact jround_eval (by norm_num) (by norm_num)
  refine ⟨?_, ?_, by norm_num⟩
  · simp only [spoolCardView, getDefaultCoreWeight, hg]
    rw [if_pos (by norm_num : (0 : ℚ) < 250)]
    rw [show ((((503 : ℤ)) : ℚ) - 250 : ℚ) = 253 by norm_num]
    rw [show jmax 0 (253 : ℚ) = 253 by norm_num [jmax]]
    rw [show jround (253 : ℚ) = 253 from jround_eval (by norm_num) (by norm_num)]
    rw [show (((253 : ℤ)) : ℚ) = 253 by norm_num]
    simp only [if_true]
    rw [show ((253 : ℚ) / ((1000 : ℤ) : ℚ) * 100) = 253/10 by norm_num]
    rw [show jround ((253 : ℚ)/10) = 25 from jround_eval (by norm_num) (by norm_num)]
    norm_num [jmin]
  · simp only [fillPercentSpec]
    rw [show jmax (1 : ℚ) 0 = 1 by norm_num [jmax]]
    rw [show (((253 : ℤ) : ℚ) / 1 * 100) = 25300 by norm_num]
    rw [show jround (25300 : ℚ) = 25300 from
      jround_eval (by norm_num) (by norm_num)]
    norm_num [jmin]

/-- C8 (amended): for every spool and scale reading, `core` is the
spool's core weight when positive, else the configurable default
(250 g when unset); `gross = round(max(0, scale))`;
`remaining = round(max(0, gross - core))`;
`fillPercent = min(100, round(remaining / L * 100))` where
`L = round(labelWeightG)` when `labelWeightG` is nonzero and 1000
otherwise; `expected = max(0, labelWeightG - weightUsedG) + core`; and
`isMatch` holds iff `|gross - expected| <= 50`. -/
theorem spoolCardView_spec (sp : SpoolFields) (stored : Option ℤ)
    (scale : ℚ) :
    (spoolCardView sp stored scale).core =
      (if 0 < sp.core_weight then sp.core_weight
       else (getDefaultCoreWeight stored : ℚ)) ∧
    getDefaultCoreWeight none = 250 ∧
    (spoolCardView sp stored scale).gross = jround (max 0 scale) ∧
    (spoolCardView sp stored scale).remaining =
      jround (max 0 (((spoolCardView sp stored scale).gross : ℚ) -
        (spoolCardView sp stored scale).core)) ∧
    (spoolCardView sp stored scale).fillPercent =
      min 100 (jround (((spoolCardView sp stored scale).remaining : ℚ) /
        ((if sp.label_weight = 0 then 1000 else jround sp.label_weight : ℤ) : ℚ)
        * 100)) ∧
    (spoolCardView sp stored scale).expected =
      max 0 (sp.label_weight - sp.weight_used) +
        (spoolCardView sp stored scale).core ∧
    ((spoolCardView sp stored scale).isMatch = true ↔
      |((spoolCardView sp stored scale).gross : ℚ) -
        (spoolCardView sp stored scale).expected| ≤ 50) := by
  refine ⟨rfl, rfl, ?_, ?_, ?_, ?_, ?_⟩ <;>
    simp only [spoolCardView, jmax_eq_max, jmin_eq_min, jabs_eq_abs,
      decide_eq_true_iff]

/-- C8 (end-to-end check at the spec's concrete scenario): spool with
core 250 g, label 1000 g, 200 g used; 503 g on the scale gives
remaining 253 g, fill 25 percent, expected gross 1050 g, and the 50 g
match band fails (|503 - 1050| > 50). -/
theorem spoolCardView_scenario :
    spoolCardView ⟨1000, 250, 200⟩ none 503 =
      { core := 250
        gross := 503
        remaining := 253
        labelW := 1000
        fillPercent := 25
        expected := 1050
        isMatch := false } := by
  have hg : jround (jmax 0 (503 : ℚ)) = 503 := by
    rw [show jmax 0 (503 : ℚ) = 503 by norm_num [jmax]]
    exact jround_eval (by norm_num) (by norm_num)
  simp only [spoolCardView, getDefaultCoreWeight, hg]
  rw [if_pos (by norm_num : (0 : ℚ) < 250)]
  rw [show ((((503 : ℤ)) : ℚ) - 250 : ℚ) = 253 by norm_num]
  rw [show jmax 0 (253 : ℚ) = 253 by norm_num [jmax]]
  rw [show jround (253 : ℚ) = 253 from jround_eval (by norm_num) (by norm_num)]
  rw [if_neg (by norm_num : ¬ (1000 : ℚ) = 0)]
  rw [show jround (1000 : ℚ) = 1000 from jround_eval (by norm_num) (by norm_num)]
  rw [show (((253 : ℤ)) : ℚ) = 253 by norm_num]
  rw [show ((253 : ℚ) / ((1000 : ℤ) : ℚ) * 100) = 253/10 by norm_num]
  rw [show jround ((253 : ℚ)/10) = 25 from jround_eval (by norm_num) (by norm_num)]
  rw [show jmax 0 ((1000 : ℚ) - 200) = 800 by norm_num [jmax]]
  rw [show jabs (((503 : ℤ) : ℚ) - (800 + 250)) = 547 by norm_num [jabs]]
  norm_num [jmin]

/-! ## Queue feasibility filter and clear-plate gating (PrinterQueueWidget)

Embeds `compatibleQueue` — the filter deciding which pending queue
items the printer can actually print given the loaded filament types
and the loaded type/color pairs — and the widget's rendering decision:
nothing when the feasible queue is empty, a clear-plate prompt when the
printer is in FINISH or FAILED and the plate has not been cleared, and
a passive view-queue link otherwise.

JavaScript string primitives are modelled structurally:
`toUpperCase`/`toLowerCase` map the ASCII case change over the
characters, `slice(0, 6)` takes the first six characters, and
`replace('#', '')` removes the first occurrence of the hash.
-/

/-- JavaScript `toUpperCase` (ASCII). -/
def jsToUpper (s : String) : String := ⟨s.data.map Char.toUpper⟩

/-- JavaScript `toLowerCase` (ASCII). -/
def jsToLower (s : String) : String := ⟨s.data.map Char.toLower⟩

/-- JavaScript `slice(0, n)` on a string. -/
def jsTake (s : String) (n : ℕ) : String := ⟨s.data.take n⟩

/-- Helper for `replace('#', '')`: drop the first hash character. -/
def removeFirstHashAux : List Char → List Char
  | [] => []
  | c :: cs => if c = '#' then cs else c :: removeFirstHashAux cs

/-- JavaScript `replace('#', '')`: removes the first occurrence. -/
def removeFirstHash (s : String) : String := ⟨removeFirstHashAux s.data⟩

/-- A filament override entry of a queue item (`{type, color}`). -/
structure FilamentOverride where
  type : Option String
  color : Option String
  deriving DecidableEq

/-- A pending queue item, with the fields the feasibility filter
reads.  A missing (`null`) list and an empty list behave identically
in the source (`?.length` is falsy for both), so both are modelled as
the empty list. -/
structure QueueItem where
  id : ℕ
  required_filament_types : List String
  filament_overrides : List FilamentOverride
  deriving DecidableEq

/-- The normalized `"TYPE:color"` key an override is matched under:
`(o.type || '').toUpperCase()` and
`(o.color || '').replace('#', '').toLowerCase().slice(0, 6)`. -/
def overridePair (o : FilamentOverride) : String :=
  jsToUpper (o.type.getD "") ++ ":" ++
    jsTake (jsToLower (removeFirstHash (o.color.getD ""))) 6

/-- The type check of `compatibleQueue`: applies only when both the
item's required types and the loaded type set are non-empty; then every
required type, uppercased, must be among the loaded types. -/
def typeCheckOk (item : QueueItem) (loadedTypes : List String) : Bool :=
  if item.required_filament_types.isEmpty || loadedTypes.isEmpty then true
  else item.required_filament_types.all (fun t => loadedTypes.contains (jsToUpper t))

/-- The color check of `compatibleQueue`: applies only when both the
item's overrides and the loaded type/color pair set are non-empty; then
at least one override's normalized pair must be among the loaded
pairs. -/
def colorCheckOk (item : QueueItem) (loadedPairs : List String) : Bool :=
  if item.filament_overrides.isEmpty || loadedPairs.isEmpty then true
  else item.filament_overrides.any (fun o => loadedPairs.contains (overridePair o))

/-- Feasibility of one queue item (the body of the `filter` callback,
whose early returns are the conjunction of the two checks). -/
def itemFeasible (item : QueueItem) (loadedTypes loadedPairs : List String) :
    Bool :=
  typeCheckOk item loadedTypes && colorCheckOk item loadedPairs

/-- `compatibleQueue`: the feasibility-filtered queue, in order. -/
def compatibleQueue (queue : List QueueItem)
    (loadedTypes loadedPairs : List String) : List QueueItem :=
  queue.filter (fun item => itemFeasible item loadedTypes loadedPairs)

/-- A queue item requiring PETG (uppercase). -/
def itemReqPETG : QueueItem := ⟨1, ["PETG"], []⟩

/-- A queue item requiring petg (lowercase). -/
def itemReqpetg : QueueItem := ⟨2, ["petg"], []⟩

/-- C5 counterexample: with an *empty* loaded type set, the type check
is skipped entirely, so an item requiring PETG is kept even though
PETG is not present in the (empty) loaded types — the claim's "only
if every required type is present" fails for the empty loaded set. -/
theorem typeCheck_empty_loaded_counterexample :
    compatibleQueue [itemReqPETG] [] [] = [itemReqPETG] ∧
    (jsToUpper "PETG" ∈ ([] : List String) → False) := by
  exact ⟨by decide, by simp⟩

/-- C5 (amended): when the loaded type set is non-empty, an item with
a non-empty requirement list passes the type check iff every required
type, uppercased, is among the loaded types; an item with an empty
requirement list always passes the type check; the type check is
skipped (passes) when the loaded type set is empty; a feasible item
whose requirements are non-empty has, whenever the loaded set is
non-empty, all its required types loaded.  Concretely, filtering an
item requiring PETG against loaded types PLA yields the empty result,
and an item requiring petg (lowercase) against loaded types PETG is
kept. -/
theorem typeCheck_spec :
    (∀ (item : QueueItem) (lt : List String),
        lt ≠ [] → item.required_filament_types ≠ [] →
        typeCheckOk item lt =
          item.required_filament_types.all
            (fun t => lt.contains (jsToUpper t))) ∧
    (∀ (item : QueueItem) (lt : List String),
        item.required_filament_types = [] → typeCheckOk item lt = true) ∧
    (∀ (item : QueueItem), typeCheckOk item [] = true) ∧
    (∀ (queue : List QueueItem) (item : QueueItem) (lt lp : List String),
        item ∈ compatibleQueue queue lt lp → lt ≠ [] →
        item.required_filament_types.all
          (fun t => lt.contains (jsToUpper t)) = true) ∧
    compatibleQueue [itemReqPETG] ["PLA"] [] = [] ∧
    compatibleQueue [itemReqpetg] ["PETG"] [] = [itemReqpetg] := by
  have hmain : ∀ (item : QueueItem) (lt : List String),
      lt ≠ [] → item.required_filament_types ≠ [] →
      typeCheckOk item lt =
        item.required_filament_types.all (fun t => lt.contains (jsToUpper t)) := by
    intro item lt hlt hreq
    unfold typeCheckOk
    rw [if_neg]
    simp [hlt, hreq]
  refine ⟨hmain, ?_, ?_, ?_, by decide, by decide⟩
  · intro item lt hreq
    unfold typeCheckOk
    rw [if_pos]
    simp [hreq]
  · intro item
    unfold typeCheckOk
    rw [if_pos]
    simp
  · intro queue item lt lp hmem hlt
    have hfeas : itemFeasible item lt lp = true := by
      have := List.of_mem_filter hmem
      simpa using this
    have htype : typeCheckOk item lt = true := by
      have := Bool.and_elim_left (by simpa [itemFeasible] using hfeas)
      exact this
    by_cases hreq : item.required_filament_types = []
    · simp [hreq]
    · rw [hmain item lt hlt hreq] at htype
      exact htype

/-- Closed witness for the type-check theorem, applying it at concrete
inputs. -/
theorem typeCheck_spec_witness :
    typeCheckOk itemReqpetg ["PETG"] =
      itemReqpetg.required_filament_types.all
        (fun t => ["PETG"].contains (jsToUpper t)) ∧
    typeCheckOk ⟨9, [], []⟩ ["PLA"] = true ∧
    itemReqpetg.required_filament_types.all
      (fun t => ["PETG"].contains (jsToUpper t)) = true := by
  refine ⟨?_, ?_, by decide⟩
  · exact typeCheck_spec.1 itemReqpetg ["PETG"] (by simp) (by decide)
  · exact typeCheck_spec.2.1 ⟨9, [], []⟩ ["PLA"] rfl

/-- C6: for an item with a non-empty override list and a non-empty
loaded pair set, the color check holds iff some override's normalized
`"TYPE:hex"` pair (type uppercased; color with its hash stripped,
lowercased and truncated to 6 characters) is among the loaded pairs —
so a feasible such item always has a matching override; the color
check is skipped (passes) when the loaded pair set is empty or the
item has no overrides.  Concretely, the override
`{type: PLA, color: #FF0000}` normalizes to the pair `PLA:ff0000` and
matches a loaded pair `PLA:ff0000`. -/
theorem colorCheck_spec :
    (∀ (item : QueueItem) (lp : List String),
        item.filament_overrides ≠ [] → lp ≠ [] →
        colorCheckOk item lp =
          item.filament_overrides.any
            (fun o => lp.contains (overridePair o))) ∧
    (∀ (item : QueueItem), colorCheckOk item [] = true) ∧
    (∀ (item : QueueItem) (lp : List String),
        item.filament_overrides = [] → colorCheckOk item lp = true) ∧
    (∀ (item : QueueItem) (lt lp : List String),
        item.filament_overrides ≠ [] → lp ≠ [] →
        itemFeasible item lt lp = true →
        item.filament_overrides.any
          (fun o => lp.contains (overridePair o)) = true) ∧
    overridePair ⟨some "PLA", some "#FF0000"⟩ = "PLA:ff0000" ∧
    itemFeasible ⟨3, [], [⟨some "PLA", some "#FF0000"⟩]⟩ []
      ["PLA:ff0000"] = true := by
  have hmain : ∀ (item : QueueItem) (lp : List String),
      item.filament_overrides ≠ [] → lp ≠ [] →
      colorCheckOk item lp =
        item.filament_overrides.any (fun o => lp.contains (overridePair o)) := by
    intro item lp hov hlp
    unfold colorCheckOk
    rw [if_neg]
    simp [hov, hlp]
  refine ⟨hmain, ?_, ?_, ?_, by decide, by decide⟩
  · intro item
    unfold colorCheckOk
    rw [if_pos]
    simp
  · intro item lp hov
    unfold colorCheckOk
    rw [if_pos]
    simp [hov]
  · intro item lt lp hov hlp hfeas
    have hcolor : colorCheckOk item lp = true :=
      Bool.and_elim_right (by simpa [itemFeasible] using hfeas)
    rw [hmain item lp hov hlp] at hcolor
    exact hcolor

/-- Closed witness for the color-check theorem, applying it at concrete
inputs. -/
theorem colorCheck_spec_witness :
    colorCheckOk ⟨3, [], [⟨some "PLA", some "#FF0000"⟩]⟩ ["PLA:ff0000"] =
      List.any [(⟨some "PLA", some "#FF0000"⟩ : FilamentOverride)]
        (fun o => ["PLA:ff0000"].contains (overridePair o)) ∧
    colorCheckOk ⟨3, [], [⟨some "PLA", some "#FF0000"⟩]⟩ [] = true := by
  refine ⟨?_, ?_⟩
  · exact colorCheck_spec.1 ⟨3, [], [⟨some "PLA", some "#FF0000"⟩]⟩
      ["PLA:ff0000"] (by simp) (by simp)
  · exact colorCheck_spec.2.1 ⟨3, [], [⟨some "PLA", some "#FF0000"⟩]⟩

/-- What `PrinterQueueWidget` renders: nothing, the clear-plate prompt
(with the button enabled or disabled), the post-success confirmation,
or the passive view-queue link. -/
inductive WidgetView where
  | hidden
  | clearPrompt (clearEnabled : Bool)
  | plateReady
  | viewQueue
  deriving DecidableEq

/-- `needsClearPlate`: printer state is FINISH or FAILED and the plate
has not been cleared.  The printer state is `none` when unset. -/
def needsClearPlate (printerState : Option String) (plateCleared : Bool) :
    Bool :=
  (printerState == some "FINISH" || printerState == some "FAILED") &&
    !plateCleared

/-- The widget's rendering decision: `null` when the feasible queue is
empty; in the clear-plate branch the confirmation replaces the button
after a successful mutation, and the button is disabled while the
mutation is pending or when the caller lacks the
`printers:clear_plate` permission; otherwise the passive view-queue
link. -/
def widgetView (queue : List QueueItem) (loadedTypes loadedPairs : List String)
    (printerState : Option String) (plateCleared : Bool)
    (hasPerm : Bool) (mutationPending : Bool) (mutationSuccess : Bool) :
    WidgetView :=
  if (compatibleQueue queue loadedTypes loadedPairs).length = 0 then .hidden
  else if needsClearPlate printerState plateCleared then
    if mutationSuccess then .plateReady
    else .clearPrompt (!mutationPending && hasPerm)
  else .viewQueue

/-- C7: before any mutation has run, the widget offers the clear-plate
action iff the printer state is FINISH or FAILED, the plate has not
been cleared, and the feasible queue is non-empty; an empty feasible
queue renders nothing at all; a non-empty feasible queue outside the
clear-plate condition (plate already cleared, or state IDLE, RUNNING
or unset) renders only the passive view-queue link; the clear button
is enabled only when the caller holds the `printers:clear_plate`
permission, and without the permission the prompt is still shown with
the button disabled, not hidden. -/
theorem widgetView_spec (queue : List QueueItem)
    (lt lp : List String) (st : Option String) (cleared : Bool)
    (perm pending : Bool) :
    ((∃ e, widgetView queue lt lp st cleared perm pending false =
        .clearPrompt e) ↔
      ((st = some "FINISH" ∨ st = some "FAILED") ∧ cleared = false ∧
        compatibleQueue queue lt lp ≠ [])) ∧
    (compatibleQueue queue lt lp = [] →
      widgetView queue lt lp st cleared perm pending false = .hidden) ∧
    (compatibleQueue queue lt lp ≠ [] →
      needsClearPlate st cleared = false →
      widgetView queue lt lp st cleared perm pending false = .viewQueue) ∧
    (widgetView queue lt lp st cleared perm pending false =
        .clearPrompt true → perm = true) ∧
    (compatibleQueue queue lt lp ≠ [] →
      needsClearPlate st cleared = true → perm = false →
      widgetView queue lt lp st cleared perm pending false =
        .clearPrompt false) := by
  have hneed : needsClearPlate st cleared = true ↔
      ((st = some "FINISH" ∨ st = some "FAILED") ∧ cleared = false) := by
    simp [needsClearPlate]
  by_cases hq : (compatibleQueue queue lt lp).length = 0
  · have hq' : compatibleQueue queue lt lp = [] :=
      List.length_eq_zero.mp hq
    refine ⟨⟨?_, ?_⟩, fun _ => ?_, fun h _ => absurd hq' h, fun h => ?_,
      fun h _ _ => absurd hq' h⟩
    · rintro ⟨e, he⟩
      simp only [widgetView, if_pos hq] at he
      cases he
    · rintro ⟨_, _, hne⟩
      exact absurd hq' hne
    · simp only [widgetView, if_pos hq]
    · simp only [widgetView, if_pos hq] at h
      cases h
  · have hq' : compatibleQueue queue lt lp ≠ [] := fun h =>
      hq (List.length_eq_zero.mpr h)
    have hw : widgetView queue lt lp st cleared perm pending false =
        if needsClearPlate st cleared then
          WidgetView.clearPrompt (!pending && perm)
        else WidgetView.viewQueue := by
      simp only [widgetView, if_neg hq]
      by_cases hn : needsClearPlate st cleared = true
      · rw [if_pos hn, if_pos hn, if_neg (by simp)]
      · rw [if_neg hn, if_neg hn]
    by_cases hn : needsClearPlate st cleared = true
    · rw [hw, if_pos hn]
      refine ⟨⟨fun _ => ⟨(hneed.mp hn).1, (hneed.mp hn).2, hq'⟩,
        fun _ => ⟨_, rfl⟩⟩, fun h => absurd h hq', fun _ hfalse => ?_,
        fun h => ?_, fun _ _ hperm => ?_⟩
      · rw [hn] at hfalse; cases hfalse
      · have hb : (!pending && perm) = true := by injection h
        exact Bool.and_elim_right hb
      · rw [hperm]; simp
    · rw [hw, if_neg hn]
      refine ⟨⟨?_, ?_⟩, fun h => absurd h hq', fun _ _ => rfl, fun h => ?_,
        fun _ htrue _ => absurd htrue hn⟩
      · rintro ⟨e, he⟩; cases he
      · rintro ⟨hst, hcl, _⟩
        exact absurd (hneed.mpr ⟨hst, hcl⟩) hn
      · cases h

/-- Closed witness for the widget-view theorem, applying it at concrete
inputs. -/
theorem widgetView_spec_witness :
    widgetView [⟨4, [], []⟩] [] [] (some "FINISH") false true false false =
      .clearPrompt true ∧
    widgetView [⟨4, [], []⟩] [] [] (some "IDLE") false true false false =
      .viewQueue ∧
    widgetView [] [] [] (some "FINISH") false true false false = .hidden ∧
    widgetView [⟨4, [], []⟩] [] [] (some "FINISH") false false false false =
      .clearPrompt false := by
  refine ⟨?_, ?_, ?_, ?_⟩
  · have h := (widgetView_spec [⟨4, [], []⟩] [] [] (some "FINISH") false
      true false).1.mpr ⟨Or.inl rfl, rfl, by decide⟩
    obtain ⟨e, he⟩ := h
    have he' : e = true := by
      have := (widgetView_spec [⟨4, [], []⟩] [] [] (some "FINISH") false
        true false).2.2.2.1
      cases e
      · exfalso
        revert he
        decide
      · rfl
    rw [he'] at he
    exact he
  · exact (widgetView_spec [⟨4, [], []⟩] [] [] (some "IDLE") false
      true false).2.2.1 (by decide) (by decide)
  · exact (widgetView_spec [] [] [] (some "FINISH") false
      true false).2.1 (by decide)
  · exact (widgetView_spec [⟨4, [], []⟩] [] [] (some "FINISH") false
      false false).2.2.2.2 (by decide) (by decide) rfl

/-! ## Dashboard display reconciler (SpoolBuddyDashboard)

Embeds the dashboard's presentation state: `displayedTagId`,
`hiddenTagId`, `displayedWeight` and `weightUpdatedForSpool`, together
with the three effects that run when telemetry arrives:

1. the tag-detection effect (show the card for a new tag, clear the
   dismissal when the tag is removed),
2. the reset of `weightUpdatedForSpool` when the displayed spool
   changes,
3. the auto-sync effect, which calls `updateSpoolWeight` at most once
   per displayed spool id.

A step processes one telemetry snapshot (current tag, weight, stable
flag) or one user dismissal, and returns the new state together with
the list of `updateSpoolWeight(spoolId, grams)` calls it issued.  The
state transition does not consume any result of those calls: a failed
call leaves the displayed state exactly as a successful one does.
-/

/-- An inventory spool as the dashboard sees it (id and tag link). -/
structure InvSpool where
  id : ℕ
  tag_uid : Option String
  deriving DecidableEq

/-- `spools.find(s => s.tag_uid === tag)`. -/
def findSpool (spools : List InvSpool) (u : String) : Option InvSpool :=
  spools.find? (fun s => s.tag_uid == some u)

/-- The dashboard's presentation state. -/
structure DashState where
  displayedTag : Option String
  hiddenTag : Option String
  displayedWeight : Option ℤ
  weightUpdated : Option ℕ
  deriving DecidableEq

/-- The initial presentation state (all `useState(null)`). -/
def initDash : DashState :=
  { displayedTag := none
    hiddenTag := none
    displayedWeight := none
    weightUpdated := none }

/-- One input to the reconciler: a telemetry snapshot (the current tag
id, the current weight and the stable flag, as derived from the live
state), or the user closing the spool card. -/
inductive DashInput where
  | telemetry (tag : Option String) (weight : Option ℚ) (stable : Bool)
  | dismissCard
  deriving DecidableEq

/-- The tag-detection effect: for a present tag, show it unless it is
the dismissed one (a different tag always replaces the presentation
and clears the dismissal), and record the stable weight while the card
is visible; for an absent tag, clear both the displayed and the hidden
tag if a dismissal was active. -/
def tagEffect (s : DashState) (tag : Option String) (weight : Option ℚ)
    (stable : Bool) : DashState :=
  match tag with
  | some u =>
      let s1 :=
        if (¬ s.displayedTag = none ∧ ¬ s.displayedTag = some u) ∨
            (¬ s.hiddenTag = some u ∧ ¬ s.displayedTag = some u) then
          { s with
            displayedTag := some u
            displayedWeight := none
            hiddenTag := none }
        else s
      match weight with
      | some w =>
          if ¬ s.hiddenTag = some u ∧ stable = true then
            { s1 with displayedWeight := some (jround (jmax 0 w)) }
          else s1
      | none => s1
  | none =>
      if ¬ s.hiddenTag = none then
        { s with
          displayedTag := none
          hiddenTag := none
          displayedWeight := none }
      else s

/-- `displayedSpool?.id`. -/
def dispSpoolId (spools : List InvSpool) (s : DashState) : Option ℕ :=
  (s.displayedTag.bind (findSpool spools)).map InvSpool.id

/-- The reset effect: clear `weightUpdatedForSpool` whenever it does
not match the displayed spool's id. -/
def resetSyncEffect (spools : List InvSpool) (s : DashState) : DashState :=
  if ¬ dispSpoolId spools s = s.weightUpdated then
    { s with weightUpdated := none }
  else s

/-- The auto-sync effect: when a spool is displayed, a tag is present,
the weight is stable and this spool id has not been synced yet, mark
it synced and issue `updateSpoolWeight(spoolId, round(max(0, w)))`
when a weight is available. -/
def syncEffect (spools : List InvSpool) (s : DashState) (tag : Option String)
    (weight : Option ℚ) (stable : Bool) : DashState × List (ℕ × ℤ) :=
  match s.displayedTag.bind (findSpool spools), tag with
  | some sp, some _ =>
      if stable = true ∧ ¬ s.weightUpdated = some sp.id then
        ({ s with weightUpdated := some sp.id },
          match weight with
          | some w => [(sp.id, jround (jmax 0 w))]
          | none => [])
      else (s, [])
  | _, _ => (s, [])

/-- One reconciler step: the three effects in order for telemetry, or
the close handler (`setHiddenTagId(displayedTagId)`) for a user
dismissal. -/
def dashStep (spools : List InvSpool) (s : DashState) :
    DashInput → DashState × List (ℕ × ℤ)
  | .telemetry tag weight stable =>
      syncEffect spools (resetSyncEffect spools (tagEffect s tag weight stable))
        tag weight stable
  | .dismissCard => ({ s with hiddenTag := s.displayedTag }, [])

/-- Run the reconciler over a list of inputs, collecting all
`updateSpoolWeight` calls in order. -/
def dashRun (spools : List InvSpool) (s : DashState) :
    List DashInput → DashState × List (ℕ × ℤ)
  | [] => (s, [])
  | i :: is =>
      let r1 := dashStep spools s i
      let r2 := dashRun spools r1.1 is
      (r2.1, r1.2 ++ r2.2)

/-- The rendered presentation (`showCard` and the two cards): a tag is
presented when displayed and not hidden, dismissed when displayed and
hidden, and nothing is shown otherwise. -/
inductive DisplayView where
  | idle
  | presenting (uid : String)
  | dismissed (uid : String)
  deriving DecidableEq

/-- The view derived from the presentation state. -/
def viewOf (s : DashState) : DisplayView :=
  match s.displayedTag with
  | none => .idle
  | some u => if s.hiddenTag = some u then .dismissed u else .presenting u

/-- C3: the dismiss/re-present round trip.  From the idle state, the
sequence TagDetected(A), user dismiss, TagRemoved, TagDetected(A)
passes through Idle, Presenting(A), Dismissed(A), Idle, Presenting(A);
in particular TagRemoved while dismissed clears both the displayed and
the hidden tag, so the same tag presents again. -/
theorem dismiss_represent_cycle :
    viewOf initDash = .idle ∧
    viewOf (dashRun [] initDash
      [.telemetry (some "A") none false]).1 = .presenting "A" ∧
    viewOf (dashRun [] initDash
      [.telemetry (some "A") none false, .dismissCard]).1 = .dismissed "A" ∧
    (dashRun [] initDash
      [.telemetry (some "A") none false, .dismissCard,
        .telemetry none none false]).1 = initDash ∧
    viewOf (dashRun [] initDash
      [.telemetry (some "A") none false, .dismissCard,
        .telemetry none none false,
        .telemetry (some "A") none false]).1 = .presenting "A" := by
  decide

/-! ### Exactly-once auto-sync (C1) -/

/-- The tag-detection effect never touches `weightUpdatedForSpool`. -/
theorem tagEffect_weightUpdated (s : DashState) (tag : Option String)
    (weight : Option ℚ) (stable : Bool) :
    (tagEffect s tag weight stable).weightUpdated = s.weightUpdated := by
  cases tag with
  | none =>
      simp only [tagEffect]
      split <;> rfl
  | some u =>
      cases weight with
      | none =>
          simp only [tagEffect]
          split <;> rfl
      | some w =>
          simp only [tagEffect]
          split <;> split <;> rfl

/-- When the incoming tag is `u` and either `u` is already displayed or
`u` is not the dismissed tag, the tag effect leaves `u` displayed. -/
theorem tagEffect_displayed (s : DashState) (u : String) (weight : Option ℚ)
    (stable : Bool) (hd : s.displayedTag = some u ∨ ¬ s.hiddenTag = some u) :
    (tagEffect s (some u) weight stable).displayedTag = some u := by
  have hcore : (if (¬ s.displayedTag = none ∧ ¬ s.displayedTag = some u) ∨
      (¬ s.hiddenTag = some u ∧ ¬ s.displayedTag = some u) then
      { s with
        displayedTag := some u
        displayedWeight := none
        hiddenTag := none }
    else s).displayedTag = some u := by
    by_cases hcond : (¬ s.displayedTag = none ∧ ¬ s.displayedTag = some u) ∨
        (¬ s.hiddenTag = some u ∧ ¬ s.displayedTag = some u)
    · rw [if_pos hcond]
    · rw [if_neg hcond]
      rcases hd with hdl | hdr
      · exact hdl
      · by_contra hdt
        exact hcond (Or.inr ⟨hdr, hdt⟩)
  cases weight with
  | none => exact hcore
  | some w =>
      simp only [tagEffect]
      split
      · exact hcore
      · exact hcore

/-- Step behavior while a matched spool is displayed and already
synced: no call is issued and the sync marker is unchanged. -/
theorem dashStep_armed (spools : List InvSpool) (sp : InvSpool) (u : String)
    (s : DashState) (w : ℚ) (st : Bool)
    (hf : findSpool spools u = some sp)
    (hdisp : s.displayedTag = some u)
    (harm : s.weightUpdated = some sp.id) :
    dashStep spools s (.telemetry (some u) (some w) st) =
      (tagEffect s (some u) (some w) st, []) := by
  have h1d : (tagEffect s (some u) (some w) st).displayedTag = some u :=
    tagEffect_displayed s u (some w) st (Or.inl hdisp)
  have h1w : (tagEffect s (some u) (some w) st).weightUpdated = some sp.id := by
    rw [tagEffect_weightUpdated]; exact harm
  have hdi : dispSpoolId spools (tagEffect s (some u) (some w) st) =
      some sp.id := by
    simp [dispSpoolId, h1d, hf]
  have h2 : resetSyncEffect spools (tagEffect s (some u) (some w) st) =
      tagEffect s (some u) (some w) st := by
    unfold resetSyncEffect
    rw [if_neg]
    simp [hdi, h1w]
  simp only [dashStep, h2, syncEffect, h1d, Option.some_bind, hf, h1w]
  rw [if_neg]
  simp

/-- Step behavior while a matched spool is displayed but not yet
synced: a stable sample issues exactly one `updateSpoolWeight` call
and marks the spool synced; an unstable sample issues none and leaves
the spool unsynced. -/
theorem dashStep_unarmed (spools : List InvSpool) (sp : InvSpool) (u : String)
    (s : DashState) (w : ℚ) (st : Bool)
    (hf : findSpool spools u = some sp)
    (hd : s.displayedTag = some u ∨ ¬ s.hiddenTag = some u)
    (hna : ¬ s.weightUpdated = some sp.id) :
    (dashStep spools s (.telemetry (some u) (some w) st)).1.displayedTag =
      some u ∧
    (st = true →
      (dashStep spools s (.telemetry (some u) (some w) st)).2 =
        [(sp.id, jround (jmax 0 w))] ∧
      (dashStep spools s (.telemetry (some u) (some w) st)).1.weightUpdated =
        some sp.id) ∧
    (st = false →
      (dashStep spools s (.telemetry (some u) (some w) st)).2 = [] ∧
      (dashStep spools s (.telemetry (some u) (some w) st)).1.weightUpdated =
        none) := by
  have h1d := tagEffect_displayed s u (some w) st hd
  have h1w := tagEffect_weightUpdated s (some u) (some w) st
  have hdi : dispSpoolId spools (tagEffect s (some u) (some w) st) =
      some sp.id := by
    simp [dispSpoolId, h1d, hf]
  have h2 : resetSyncEffect spools (tagEffect s (some u) (some w) st) =
      { tagEffect s (some u) (some w) st with weightUpdated := none } := by
    unfold resetSyncEffect
    rw [if_pos]
    rw [hdi, h1w]
    exact fun hc => hna hc.symm
  simp only [dashStep, h2, syncEffect, h1d, Option.some_bind, hf]
  cases st with
  | true =>
      rw [if_pos ⟨rfl, by simp⟩]
      refine ⟨rfl, fun _ => ⟨rfl, rfl⟩, ?_⟩
      intro hcontra
      exact absurd hcontra (by simp)
  | false =>
      rw [if_neg (by simp)]
      refine ⟨rfl, ?_, fun _ => ⟨rfl, rfl⟩⟩
      intro hcontra
      exact absurd hcontra (by simp)

/-- Unfolding rule for one step of `dashRun`. -/
theorem dashRun_cons (spools : List InvSpool) (s : DashState)
    (i : DashInput) (is : List DashInput) :
    dashRun spools s (i :: is) =
      ((dashRun spools (dashStep spools s i).1 is).1,
        (dashStep spools s i).2 ++
          (dashRun spools (dashStep spools s i).1 is).2) := rfl

/-- Once the displayed spool has been synced, further samples of the
same tag never issue another `updateSpoolWeight` call, however many
arrive and whether or not they are stable. -/
theorem dashRun_armed (spools : List InvSpool) (sp : InvSpool) (u : String)
    (hf : findSpool spools u = some sp) :
    ∀ (samples : List (ℚ × Bool)) (s : DashState),
      s.displayedTag = some u → s.weightUpdated = some sp.id →
      (dashRun spools s
        (samples.map (fun p => .telemetry (some u) (some p.1) p.2))).2 = [] := by
  intro samples
  induction samples with
  | nil => intro s _ _; rfl
  | cons p rest ih =>
      intro s hdisp harm
      rw [List.map_cons, dashRun_cons]
      rw [dashStep_armed spools sp u s p.1 p.2 hf hdisp harm]
      have hd' : (tagEffect s (some u) (some p.1) p.2).displayedTag = some u :=
        tagEffect_displayed s u (some p.1) p.2 (Or.inl hdisp)
      have ha' : (tagEffect s (some u) (some p.1) p.2).weightUpdated =
          some sp.id := by
        rw [tagEffect_weightUpdated]; exact harm
      have hrest := ih (tagEffect s (some u) (some p.1) p.2) hd' ha'
      simpa using hrest

/-- C1: exactly-once weight auto-sync.  First part: while the matched
spool `sp` (linked to tag `u`) is being presented and has not been
synced, any run of weight samples for that tag issues exactly one
`updateSpoolWeight` call when some sample is stable and none when no
sample is — in particular the call count does not grow with further
stable samples.  Second part: switching to a different matched spool
re-arms the sync; the concrete trace A(stable), A(stable), B(stable),
A(stable) issues exactly the three calls A, B, A, each with the
rounded, clamped weight.  The state transition never consumes a result
of the call, so a failed call leaves the displayed state exactly as a
successful one. -/
theorem autoSync_exactly_once :
    (∀ (spools : List InvSpool) (sp : InvSpool) (u : String)
        (samples : List (ℚ × Bool)) (s : DashState),
        findSpool spools u = some sp →
        ¬ s.weightUpdated = some sp.id →
        (s.displayedTag = some u ∨ ¬ s.hiddenTag = some u) →
        (dashRun spools s
          (samples.map (fun p => .telemetry (some u) (some p.1) p.2))).2.length
          = (if samples.any (fun p => p.2) then 1 else 0)) ∧
    (dashRun [⟨1, some "A"⟩, ⟨2, some "B"⟩] initDash
      [.telemetry (some "A") (some 500) true,
        .telemetry (some "A") (some 501) true,
        .telemetry (some "B") (some 600) true,
        .telemetry (some "A") (some 505) true]).2 =
      [(1, jround (jmax 0 500)), (2, jround (jmax 0 600)),
        (1, jround (jmax 0 505))] := by
  constructor
  · intro spools sp u samples
    induction samples with
    | nil =>
        intro s _ _ _
        simp [dashRun]
    | cons p rest ih =>
        obtain ⟨pw, pb⟩ := p
        intro s hf hna hd
        rw [List.map_cons, dashRun_cons]
        cases pb with
        | true =>
            have hstep := (dashStep_unarmed spools sp u s pw true hf hd hna).2.1 rfl
            have hdisp' := (dashStep_unarmed spools sp u s pw true hf hd hna).1
            have hrest := dashRun_armed spools sp u hf rest
              (dashStep spools s (.telemetry (some u) (some pw) true)).1
              hdisp' hstep.2
            rw [hstep.1, hrest]
            simp
        | false =>
            have hstep := (dashStep_unarmed spools sp u s pw false hf hd hna).2.2 rfl
            have hdisp' := (dashStep_unarmed spools sp u s pw false hf hd hna).1
            have hna' : ¬ (dashStep spools s
                (.telemetry (some u) (some pw) false)).1.weightUpdated =
                some sp.id := by
              rw [hstep.2]; simp
            have hrest := ih
              (dashStep spools s (.telemetry (some u) (some pw) false)).1
              hf hna' (Or.inl hdisp')
            rw [hstep.1]
            simp only [List.nil_append]
            rw [hrest]
            simp only [List.any_cons, Bool.false_or]
  · rfl

/-- Closed witness for the exactly-once theorem, applying its general
part at a concrete spool, tag and sample run: two stable samples for
the same presented spool produce exactly one sync call. -/
theorem autoSync_exactly_once_witness :
    (dashRun [⟨1, some "A"⟩] initDash
      [.telemetry (some "A") (some 500) true,
        .telemetry (some "A") (some 501) true]).2.length = 1 := by
  have h := autoSync_exactly_once.1 [⟨1, some "A"⟩] ⟨1, some "A"⟩ "A"
    [(500, true), (501, true)] initDash (by decide) (by decide)
    (Or.inr (by decide))
  simpa using h

end Bambuddy
